import Mathlib

/-!
# pkg/plugin/pipedapi/client.go

A shallow embedding of `NewClient` and `PluginServiceClient.Close`.

The Go file manipulates a variadic option slice (`slices.Clone`, `append`),
calls three collaborators that live outside the file (`rpcclient.DialContext`,
`service.NewPluginServiceClient`, `(*grpc.ClientConn).Close`) and allocates one
handle.  The embedding therefore carries

* a heap of backing arrays, with Go slice headers (array, offset, len, cap)
  pointing into it, so that aliasing between the caller's slice and the
  slice handed to the dial primitive can be stated;
* a heap of allocated handles;
* an external state that only the collaborators can read or change;
* a trace of the collaborator calls, oldest first.
-/

namespace Pipedapi

/-! ## Go slices over a heap of backing arrays -/

/-- A heap of backing arrays; the address of an array is its index. -/
abbrev Heap (α : Type) := List (List α)

/-- A Go slice header.  `arr = none` is the nil slice. -/
structure Slice where
  arr : Option Nat
  off : Nat
  len : Nat
  cap : Nat
  deriving DecidableEq

/-- The nil slice, what a variadic call without arguments passes. -/
def Slice.nil : Slice := { arr := none, off := 0, len := 0, cap := 0 }

/-- The backing array a header points to (empty for the nil slice). -/
def backing {α : Type} (h : Heap α) (s : Slice) : List α :=
  match s.arr with
  | none => []
  | some a => h.getD a []

/-- The elements `s[0], ..., s[len-1]`. -/
def readSlice {α : Type} (h : Heap α) (s : Slice) : List α :=
  ((backing h s).drop s.off).take s.len

/-- The elements `s[0], ..., s[cap-1]` of `s[:cap]`: all the storage reachable from the header. -/
def readCap {α : Type} (h : Heap α) (s : Slice) : List α :=
  ((backing h s).drop s.off).take s.cap

/-- A header is valid in a heap: the nil slice has len and cap 0, any other one
points to an allocated array and `len ≤ cap`, `off + cap ≤` the array's size. -/
def SliceWF {α : Type} (h : Heap α) (s : Slice) : Prop :=
  match s.arr with
  | none => s.len = 0 ∧ s.cap = 0
  | some a => a < h.length ∧ s.len ≤ s.cap ∧ s.off + s.cap ≤ (h.getD a []).length

instance instDecidableSliceWF {α : Type} (h : Heap α) (s : Slice) : Decidable (SliceWF h s) := by
  unfold SliceWF
  cases s.arr <;> exact inferInstance

/-- Overwrite the cells `pos, pos+1, ...` of one array with `xs` (the array keeps its size). -/
def patch {α : Type} (cells : List α) (pos : Nat) (xs : List α) : List α :=
  cells.take pos ++ xs ++ cells.drop (pos + xs.length)

/-- Store `xs` at `s[i], s[i+1], ...`.  Writing through the nil slice is not possible.
Go only reaches indices below the capacity; the function is total beyond them. -/
def writeSlice {α : Type} (h : Heap α) (s : Slice) (i : Nat) (xs : List α) : Heap α :=
  match s.arr with
  | none => h
  | some a => h.set a (patch (h.getD a []) (s.off + i) xs)

/-- The Go runtime as far as `append` needs it: the zero value of the element
type (what fresh spare capacity holds) and the capacity the allocator proposes
when a slice of capacity `old` has to hold `need` elements. -/
structure Runtime (α : Type) where
  zero : α
  growCap : Nat → Nat → Nat

/-- The capacity of the array `append` allocates: the language only promises that it is
sufficiently large, so the allocator's proposal is taken when it is at least `need`. -/
def Runtime.newCap {α : Type} (rt : Runtime α) (old need : Nat) : Nat :=
  max need (rt.growCap old need)

/-- The Go builtin `append(s, xs...)`: in place when the capacity suffices,
otherwise into a newly allocated array holding the old elements, `xs`, and
zero values in the spare capacity. -/
def goAppend {α : Type} (rt : Runtime α) (h : Heap α) (s : Slice) (xs : List α) : Heap α × Slice :=
  if s.len + xs.length ≤ s.cap then
    (writeSlice h s s.len xs, { s with len := s.len + xs.length })
  else
    let need := s.len + xs.length
    let cells := readSlice h s ++ xs ++ List.replicate (rt.newCap s.cap need - need) rt.zero
    (h ++ [cells], { arr := some h.length, off := 0, len := need, cap := rt.newCap s.cap need })

/-- The slice expression `s[:0:0]`: same array, no element, no capacity. -/
def Slice.empty00 (s : Slice) : Slice := { s with len := 0, cap := 0 }

/-- `slices.Clone(s)`, which is `append(s[:0:0], s...)`: nil stays nil, an empty slice
gives a slice without capacity, and a non-empty one is copied into a new array. -/
def Clone {α : Type} (rt : Runtime α) (h : Heap α) (s : Slice) : Heap α × Slice :=
  goAppend rt h s.empty00 (readSlice h s)

/-! ## The collaborators, the state and the two operations -/

/-- The struct `PluginServiceClient`: the embedded generated stub and the owned connection. -/
structure PluginServiceClient (Stub Conn : Type) where
  stub : Stub
  conn : Conn
  deriving DecidableEq

/-- A call made to a collaborator. -/
inductive Event (α Ctx Conn : Type) where
  | dial (ctx : Ctx) (address : String) (opts : List α)
  | newStub (conn : Conn)
  | close (conn : Conn)
  deriving DecidableEq

/-- Whether an event is a call of the dial primitive. -/
def Event.isDial {α Ctx Conn : Type} : Event α Ctx Conn → Bool
  | .dial _ _ _ => true
  | _ => false

/-- Whether an event is a call of the generated stub constructor. -/
def Event.isNewStub {α Ctx Conn : Type} : Event α Ctx Conn → Bool
  | .newStub _ => true
  | _ => false

/-- Whether an event is a call of a connection's close. -/
def Event.isClose {α Ctx Conn : Type} : Event α Ctx Conn → Bool
  | .close _ => true
  | _ => false

/-- What the file takes from outside.  `α` is `rpcclient.DialOption`, `Conn` is
`*grpc.ClientConn` (nil included), `Err` the non-nil values of `error`, `σ` the
state of everything outside the file (network, connections).
`DialContext` and `connClose` (the method `(*grpc.ClientConn).Close`) read and
change that state; `DialContext` returns Go's pair `(conn, err)`, with
`none` for a nil error.  The collaborators see the elements of the slice they are
given and have no access to the heap of option arrays. -/
structure Env (α Ctx Conn Err Stub σ : Type) where
  rt : Runtime α
  WithBlock : α
  WithInsecure : α
  DialContext : Ctx → String → List α → σ → (Conn × Option Err) × σ
  NewPluginServiceClient : Conn → Stub
  connClose : Conn → σ → Option Err × σ

/-- The state a call runs in. -/
structure World (α Ctx Conn Stub σ : Type) where
  heap : Heap α
  handles : List (PluginServiceClient Stub Conn)
  ext : σ
  trace : List (Event α Ctx Conn)

section Ops

variable {α Ctx Conn Err Stub σ : Type}

/-- Lines 34 and 40 of `NewClient`: `opts = slices.Clone(opts)` followed by
`opts = append(opts, rpcclient.WithBlock(), rpcclient.WithInsecure())`.
Returns the heap afterwards and the new value of the local `opts`. -/
def composeOpts (env : Env α Ctx Conn Err Stub σ) (h : Heap α) (opts : Slice) : Heap α × Slice :=
  let c := Clone env.rt h opts
  goAppend env.rt c.1 c.2 [env.WithBlock, env.WithInsecure]

/-- The function `NewClient(ctx, address, opts...)`.  The result is Go's pair
`(*PluginServiceClient, error)`: a handle pointer (an index into `handles`,
`none` for nil) and an error (`none` for nil). -/
def NewClient (env : Env α Ctx Conn Err Stub σ) (ctx : Ctx) (address : String) (opts : Slice)
    (w : World α Ctx Conn Stub σ) : (Option Nat × Option Err) × World α Ctx Conn Stub σ :=
  let o := composeOpts env w.heap opts
  let args := readSlice o.1 o.2
  let d := env.DialContext ctx address args w.ext
  let w1 : World α Ctx Conn Stub σ :=
    { heap := o.1, handles := w.handles, ext := d.2,
      trace := w.trace ++ [Event.dial ctx address args] }
  match d.1.2 with
  | some err => ((none, some err), w1)
  | none =>
    let conn := d.1.1
    let hd : PluginServiceClient Stub Conn :=
      { stub := env.NewPluginServiceClient conn, conn := conn }
    ((some w1.handles.length, none),
      { w1 with handles := w1.handles ++ [hd], trace := w1.trace ++ [Event.newStub conn] })

/-- The method `(c *PluginServiceClient) Close()`.  `none` is the run-time panic of
reading `c.conn` through a nil (or unallocated) pointer. -/
def Close (env : Env α Ctx Conn Err Stub σ) (c : Option Nat) (w : World α Ctx Conn Stub σ) :
    Option (Option Err × World α Ctx Conn Stub σ) :=
  match c with
  | none => none
  | some p =>
    match w.handles[p]? with
    | none => none
    | some hd =>
      let r := env.connClose hd.conn w.ext
      some (r.1, { w with ext := r.2, trace := w.trace ++ [Event.close hd.conn] })

/-- Calling `Close` on the same handle `n` times in a row, the results oldest first. -/
def closeTimes (env : Env α Ctx Conn Err Stub σ) (c : Option Nat) :
    Nat → World α Ctx Conn Stub σ → Option (List (Option Err) × World α Ctx Conn Stub σ)
  | 0, w => some ([], w)
  | n + 1, w =>
    match Close env c w with
    | none => none
    | some (r, w1) =>
      match closeTimes env c n w1 with
      | none => none
      | some (rs, w2) => some (r :: rs, w2)

/-- Calling the close of the connection `c` itself `n` times in a row on the outside
state: the results, oldest first, and the state afterwards. -/
def connCloseTimes (env : Env α Ctx Conn Err Stub σ) (c : Conn) : Nat → σ → List (Option Err) × σ
  | 0, s => ([], s)
  | n + 1, s =>
    let r := env.connClose c s
    let t := connCloseTimes env c n r.2
    (r.1 :: t.1, t.2)

/-- The calls made since the world `w`, read off the later world `w1`. -/
def eventsSince (w w1 : World α Ctx Conn Stub σ) : List (Event α Ctx Conn) :=
  w1.trace.drop w.trace.length

/-- The option sequences the dial primitive was called with, oldest first. -/
def dialedOpts : List (Event α Ctx Conn) → List (List α)
  | [] => []
  | Event.dial _ _ opts :: es => opts :: dialedOpts es
  | _ :: es => dialedOpts es

/-- The connection resources a dial outcome `(conn, err)` hands to its caller, for a
connection type whose nil value is `none`: the connection, unless it is nil. -/
def returnedConns {C : Type} (r : Option C × Option Err) : List C :=
  r.1.toList

/-- The connections whose close was called, oldest first. -/
def closedConns : List (Event α Ctx Conn) → List Conn
  | [] => []
  | Event.close c :: es => c :: closedConns es
  | _ :: es => closedConns es

end Ops

/-! ## Options as configuration effects -/

/-- Modelled from the spec: the option type of `pkg/rpc/rpcclient` and the way
`rpcclient.DialContext` applies options are not in this file.  The spec describes a
ConnectionOption as a directive that configures one concern, a closed set of
variants: here blocking, transport security, and any other concern (named by a
number) with a value. -/
inductive ConnectionOption where
  | block (enabled : Bool)
  | transportSecurity (enabled : Bool)
  | other (concern : Nat) (value : Nat)
  deriving DecidableEq

/-- Modelled from the spec: the configuration a sequence of options produces, one entry
per concern (`rpcclient`'s own option record is not in this file). -/
structure Config where
  block : Bool
  transportSecurity : Bool
  others : List (Nat × Nat)
  deriving DecidableEq

/-- Modelled from the spec: applying one option sets its concern and leaves the other
concerns as they are (`rpcclient`'s options are not in this file). -/
def Config.apply (cfg : Config) : ConnectionOption → Config
  | .block b => { cfg with block := b }
  | .transportSecurity b => { cfg with transportSecurity := b }
  | .other c v => { cfg with others := (c, v) :: cfg.others.filter (fun p => p.1 != c) }

/-- Modelled from the spec: a sequence is applied in order, so that the last option applied
for a concern wins (the loop of `rpcclient.DialContext` is not in this file). -/
def Config.applyAll (cfg : Config) (os : List ConnectionOption) : Config :=
  os.foldl Config.apply cfg

/-- Modelled from the spec: `rpcclient.WithBlock()` is the option block-until-connected and
`rpcclient.WithInsecure()` the option disable-transport-security (both constructors are
outside this file); everything else of the environment is kept. -/
def specOptions {Ctx Conn Err Stub σ : Type} (env : Env ConnectionOption Ctx Conn Err Stub σ) :
    Env ConnectionOption Ctx Conn Err Stub σ :=
  { env with
    WithBlock := ConnectionOption.block true
    WithInsecure := ConnectionOption.transportSecurity false }

/-! ## A concrete environment -/

/-- A small outside world: the connections that are open, and every close received. -/
structure Net where
  openConns : List Nat
  closeLog : List Nat
  deriving DecidableEq

/-- A dial primitive that returns a connection or an error, chosen by the context:
context 0 connects (connection 7); context 1 fails with error 503 and any other context
with error 111, both without a connection and leaving the outside state as it was. -/
def exDial (ctx : Nat) (_address : String) (_opts : List ConnectionOption) (n : Net) :
    (Option Nat × Option Nat) × Net :=
  if ctx = 0 then ((some 7, none), { n with openConns := 7 :: n.openConns })
  else if ctx = 1 then ((none, some 503), n)
  else ((none, some 111), n)

/-- A close that succeeds on an open connection and reports error 9 otherwise; each call
is logged. -/
def exClose (c : Option Nat) (n : Net) : Option Nat × Net :=
  match c with
  | none => (some 9, n)
  | some i =>
    if i ∈ n.openConns then
      (none, { openConns := n.openConns.erase i, closeLog := n.closeLog ++ [i] })
    else (some 9, { n with closeLog := n.closeLog ++ [i] })

/-- The environment of the examples: connections are `Option Nat` (`none` is nil),
errors and contexts are numbers, a stub is the connection it is bound to, and the
allocator doubles the capacity. -/
def exEnv : Env ConnectionOption Nat (Option Nat) Nat (Option Nat) Net :=
  { rt := { zero := ConnectionOption.other 0 0, growCap := fun old _ => 2 * old }
    WithBlock := ConnectionOption.block true
    WithInsecure := ConnectionOption.transportSecurity false
    DialContext := exDial
    NewPluginServiceClient := fun c => c
    connClose := exClose }

/-- A caller's slice with spare capacity: `len 3`, `cap 5`, and options that ask for
no blocking and for transport security. -/
def exOpts : Slice := { arr := some 0, off := 0, len := 3, cap := 5 }

/-- The world of the examples: the caller's backing array, no handle, nothing open. -/
def exWorld : World ConnectionOption Nat (Option Nat) (Option Nat) Net :=
  { heap := [[ConnectionOption.other 1 30, ConnectionOption.block false,
      ConnectionOption.transportSecurity true, ConnectionOption.other 5 5,
      ConnectionOption.other 6 6]]
    handles := []
    ext := { openConns := [], closeLog := [] }
    trace := [] }

/-! ## Facts about the slice primitives -/

section HeapLemmas

variable {α : Type}

theorem patch_nil (cells : List α) (pos : Nat) : patch cells pos [] = cells := by
  simp [patch]

theorem set_getD_self (h : Heap α) (a : Nat) : h.set a (h.getD a []) = h := by
  apply List.ext_getElem?
  intro j
  rw [List.getElem?_set]
  by_cases e : a = j
  · subst e
    by_cases l : a < h.length
    · simp [l, List.getD_eq_getElem?_getD, List.getElem?_eq_getElem l]
    · simp [l, List.getElem?_eq_none (Nat.le_of_not_lt l)]
  · simp [e]

theorem writeSlice_nil (h : Heap α) (s : Slice) (i : Nat) : writeSlice h s i [] = h := by
  unfold writeSlice
  cases s.arr with
  | none => rfl
  | some a =>
    show h.set a (patch (h.getD a []) (s.off + i) []) = h
    rw [patch_nil, set_getD_self]

theorem getD_append_length (h : Heap α) (cells : List α) (rest : Heap α) :
    (h ++ cells :: rest).getD h.length [] = cells := by
  rw [List.getD_eq_getElem?_getD, List.getElem?_append_right (Nat.le_refl _)]
  simp

theorem newCap_ge (rt : Runtime α) (old need : Nat) : need ≤ rt.newCap old need := by
  unfold Runtime.newCap
  exact Nat.le_max_left _ _

theorem readSlice_length_of_wf (h : Heap α) (s : Slice) (wf : SliceWF h s) :
    (readSlice h s).length = s.len := by
  unfold SliceWF at wf
  unfold readSlice backing
  cases e : s.arr with
  | none =>
    rw [e] at wf
    simp [wf.1]
  | some a =>
    rw [e] at wf
    simp only [List.length_take, List.length_drop]
    omega

theorem take_length_add_two (xs : List α) (a b : α) (rest : List α) :
    (xs ++ a :: b :: rest).take (xs.length + 2) = xs ++ [a, b] := by
  rw [List.take_append]
  rfl

theorem readSlice_empty00 (h : Heap α) (s : Slice) : readSlice h s.empty00 = [] := by
  simp [readSlice, Slice.empty00]

theorem Clone_of_nil (rt : Runtime α) (h : Heap α) (s : Slice) (e : readSlice h s = []) :
    Clone rt h s = (h, s.empty00) := by
  unfold Clone goAppend
  rw [e]
  simp [writeSlice_nil, Slice.empty00]

theorem Clone_of_ne (rt : Runtime α) (h : Heap α) (s : Slice) (e : readSlice h s ≠ []) :
    Clone rt h s =
      (h ++ [readSlice h s ++
          List.replicate (rt.newCap 0 (readSlice h s).length - (readSlice h s).length) rt.zero],
        { arr := some h.length, off := 0, len := (readSlice h s).length,
          cap := rt.newCap 0 (readSlice h s).length }) := by
  unfold Clone goAppend
  have hpos : 0 < (readSlice h s).length := List.length_pos.mpr e
  have hn : ¬ (s.empty00.len + (readSlice h s).length ≤ s.empty00.cap) := by
    simp only [Slice.empty00]
    omega
  rw [if_neg hn]
  have hr := readSlice_empty00 h s
  simp only [Slice.empty00] at hr
  simp [hr, Slice.empty00]

/-- The shape of the heap and of the local `opts` after lines 34 and 40: the old heap is a
prefix of the new one, and `opts` is the whole-array slice (offset 0) of the LAST array of
the new heap, which did not exist before. -/
theorem composeOpts_shape {Ctx Conn Err Stub σ : Type} (env : Env α Ctx Conn Err Stub σ)
    (h : Heap α) (s : Slice) :
    ∃ (pre : Heap α) (cells : List α) (E : Slice),
      composeOpts env h s = (h ++ pre ++ [cells], E) ∧
      E.arr = some (h ++ pre).length ∧ E.off = 0 ∧
      E.len = (readSlice h s).length + 2 ∧ E.len ≤ E.cap ∧ E.cap = cells.length ∧
      cells.take E.len = readSlice h s ++ [env.WithBlock, env.WithInsecure] := by
  by_cases e : readSlice h s = []
  · refine ⟨[], [env.WithBlock, env.WithInsecure] ++
        List.replicate (env.rt.newCap 0 2 - 2) env.rt.zero,
      { arr := some h.length, off := 0, len := 2, cap := env.rt.newCap 0 2 }, ?_⟩
    have h2 := newCap_ge env.rt 0 2
    unfold composeOpts
    rw [Clone_of_nil _ _ _ e]
    have hr := readSlice_empty00 h s
    simp only [Slice.empty00] at hr
    simp [goAppend, hr, Slice.empty00, e]
    omega
  · have hpos : 0 < (readSlice h s).length := List.length_pos.mpr e
    rw [show composeOpts env h s =
        goAppend env.rt (Clone env.rt h s).1 (Clone env.rt h s).2
          [env.WithBlock, env.WithInsecure] from rfl, Clone_of_ne _ _ _ e]
    generalize hxs : readSlice h s = xs at *
    generalize hN : env.rt.newCap 0 xs.length = N
    have hge : xs.length ≤ N := hN ▸ newCap_ge env.rt 0 xs.length
    by_cases fit : xs.length + 2 ≤ N
    · refine ⟨[], xs ++ [env.WithBlock, env.WithInsecure] ++
          List.replicate (N - xs.length - 2) env.rt.zero,
        { arr := some h.length, off := 0, len := xs.length + 2, cap := N }, ?_⟩
      have hpatch : patch (xs ++ List.replicate (N - xs.length) env.rt.zero) xs.length
            [env.WithBlock, env.WithInsecure] =
          xs ++ [env.WithBlock, env.WithInsecure] ++
            List.replicate (N - xs.length - 2) env.rt.zero := by
        unfold patch
        rw [List.take_left, List.drop_append, List.drop_replicate]
        simp
      simp only [goAppend, List.length_cons, List.length_nil, Nat.zero_add, if_pos fit,
        writeSlice, getD_append_length, hpatch]
      rw [List.set_append_right _ _ (Nat.le_refl _)]
      simp
      exact ⟨by omega, by omega, take_length_add_two _ _ _ _⟩
    · have hM := newCap_ge env.rt N (xs.length + 2)
      refine ⟨[xs ++ List.replicate (N - xs.length) env.rt.zero],
        xs ++ [env.WithBlock, env.WithInsecure] ++
          List.replicate (env.rt.newCap N (xs.length + 2) - (xs.length + 2)) env.rt.zero,
        { arr := some (h.length + 1), off := 0, len := xs.length + 2,
          cap := env.rt.newCap N (xs.length + 2) }, ?_⟩
      have hread : readSlice (h ++ [xs ++ List.replicate (N - xs.length) env.rt.zero])
          { arr := some h.length, off := 0, len := xs.length, cap := N } = xs := by
        simp [readSlice, backing, getD_append_length]
      simp only [goAppend, List.length_cons, List.length_nil, Nat.zero_add, if_neg fit, hread]
      simp
      exact ⟨by omega, by omega, take_length_add_two _ _ _ _⟩

theorem backing_writeSlice_of_ne (h : Heap α) (s t : Slice) (i : Nat) (xs : List α)
    (ne : s.arr ≠ t.arr) : backing (writeSlice h s i xs) t = backing h t := by
  unfold backing writeSlice
  cases es : s.arr with
  | none => rfl
  | some a =>
    cases et : t.arr with
    | none => rfl
    | some b =>
      have hab : a ≠ b := fun c => ne (by rw [es, et, c])
      simp only [List.getD_eq_getElem?_getD]
      rw [List.getElem?_set_ne hab]

theorem backing_append_of_wf (h ext : Heap α) (t : Slice) (wf : SliceWF h t) :
    backing (h ++ ext) t = backing h t := by
  unfold backing
  unfold SliceWF at wf
  cases et : t.arr with
  | none => rfl
  | some b =>
    rw [et] at wf
    simp only [List.getD_eq_getElem?_getD]
    rw [List.getElem?_append_left wf.1]

theorem backing_goAppend_of_ne (rt : Runtime α) (h : Heap α) (s t : Slice) (xs : List α)
    (ne : s.arr ≠ t.arr) (wf : SliceWF h t) : backing (goAppend rt h s xs).1 t = backing h t := by
  unfold goAppend
  split
  · exact backing_writeSlice_of_ne h s t _ xs ne
  · exact backing_append_of_wf h _ t wf

theorem readSlice_congr (h h' : Heap α) (t : Slice) (e : backing h' t = backing h t) :
    readSlice h' t = readSlice h t := by
  unfold readSlice
  rw [e]

theorem readCap_congr (h h' : Heap α) (t : Slice) (e : backing h' t = backing h t) :
    readCap h' t = readCap h t := by
  unfold readCap
  rw [e]

theorem readSlice_last (h0 : Heap α) (cells : List α) (E : Slice)
    (harr : E.arr = some h0.length) (hoff : E.off = 0) :
    readSlice (h0 ++ [cells]) E = cells.take E.len := by
  unfold readSlice backing
  rw [harr, hoff]
  simp only [getD_append_length, List.drop_zero]

section Compose

variable {Ctx Conn Err Stub σ : Type}

/-- Every array allocated before lines 34 and 40 run is the same afterwards. -/
theorem composeOpts_take (env : Env α Ctx Conn Err Stub σ) (h : Heap α) (s : Slice) :
    (composeOpts env h s).1.take h.length = h := by
  obtain ⟨pre, cells, E, hc, -⟩ := composeOpts_shape env h s
  rw [hc]
  show (h ++ pre ++ [cells]).take h.length = h
  rw [List.append_assoc, List.take_left]

/-- The local `opts` after lines 34 and 40 reads as the old `opts` followed by the two
required options. -/
theorem composeOpts_read (env : Env α Ctx Conn Err Stub σ) (h : Heap α) (s : Slice) :
    readSlice (composeOpts env h s).1 (composeOpts env h s).2 =
      readSlice h s ++ [env.WithBlock, env.WithInsecure] := by
  obtain ⟨pre, cells, E, hc, harr, hoff, -, -, -, htake⟩ := composeOpts_shape env h s
  rw [hc]
  show readSlice (h ++ pre ++ [cells]) E = _
  rw [readSlice_last (h ++ pre) cells E harr hoff]
  exact htake

/-- The local `opts` after lines 34 and 40 is a valid slice of an array that the old
heap does not contain. -/
theorem composeOpts_fresh (env : Env α Ctx Conn Err Stub σ) (h : Heap α) (s : Slice) :
    ∃ k, (composeOpts env h s).2.arr = some k ∧ h.length ≤ k ∧
      SliceWF (composeOpts env h s).1 (composeOpts env h s).2 := by
  obtain ⟨pre, cells, E, hc, harr, hoff, -, hle, hcap, -⟩ := composeOpts_shape env h s
  rw [hc]
  refine ⟨(h ++ pre).length, harr, by simp, ?_⟩
  show SliceWF (h ++ pre ++ [cells]) E
  unfold SliceWF
  rw [harr]
  refine ⟨by simp, hle, ?_⟩
  rw [getD_append_length, hoff, hcap]
  omega

theorem composeOpts_backing (env : Env α Ctx Conn Err Stub σ) (h : Heap α) (s : Slice)
    (wf : SliceWF h s) : backing (composeOpts env h s).1 s = backing h s := by
  obtain ⟨pre, cells, E, hc, -⟩ := composeOpts_shape env h s
  rw [hc]
  show backing (h ++ pre ++ [cells]) s = backing h s
  rw [List.append_assoc]
  exact backing_append_of_wf h _ s wf

theorem wf_arr_ne_of_fresh (h : Heap α) (s : Slice) (wf : SliceWF h s) (t : Slice) (k : Nat)
    (ht : t.arr = some k) (hk : h.length ≤ k) : s.arr ≠ t.arr ∧ t.arr ≠ s.arr := by
  unfold SliceWF at wf
  cases es : s.arr with
  | none => rw [ht]; simp
  | some a =>
    rw [es] at wf
    rw [ht]
    have : a ≠ k := by omega
    simp [this, Ne.symm this]

end Compose

end HeapLemmas

/-! ## Unfolding `NewClient` and `Close` -/

section Unfold

variable {α Ctx Conn Err Stub σ : Type}

/-- The sequence handed to the dial primitive. -/
theorem NewClient_args (env : Env α Ctx Conn Err Stub σ) (h : Heap α) (opts : Slice) :
    readSlice (composeOpts env h opts).1 (composeOpts env h opts).2 =
      readSlice h opts ++ [env.WithBlock, env.WithInsecure] :=
  composeOpts_read env h opts

theorem NewClient_of_err (env : Env α Ctx Conn Err Stub σ) (ctx : Ctx) (address : String)
    (opts : Slice) (w : World α Ctx Conn Stub σ) (e : Err)
    (herr : (env.DialContext ctx address
      (readSlice w.heap opts ++ [env.WithBlock, env.WithInsecure]) w.ext).1.2 = some e) :
    NewClient env ctx address opts w =
      ((none, some e),
        { heap := (composeOpts env w.heap opts).1, handles := w.handles,
          ext := (env.DialContext ctx address
            (readSlice w.heap opts ++ [env.WithBlock, env.WithInsecure]) w.ext).2,
          trace := w.trace ++ [Event.dial ctx address
            (readSlice w.heap opts ++ [env.WithBlock, env.WithInsecure])] }) := by
  unfold NewClient
  simp only [NewClient_args, herr]

theorem NewClient_of_ok (env : Env α Ctx Conn Err Stub σ) (ctx : Ctx) (address : String)
    (opts : Slice) (w : World α Ctx Conn Stub σ)
    (hok : (env.DialContext ctx address
      (readSlice w.heap opts ++ [env.WithBlock, env.WithInsecure]) w.ext).1.2 = none) :
    NewClient env ctx address opts w =
      ((some w.handles.length, none),
        { heap := (composeOpts env w.heap opts).1,
          handles := w.handles ++
            [{ stub := env.NewPluginServiceClient (env.DialContext ctx address
                (readSlice w.heap opts ++ [env.WithBlock, env.WithInsecure]) w.ext).1.1,
               conn := (env.DialContext ctx address
                (readSlice w.heap opts ++ [env.WithBlock, env.WithInsecure]) w.ext).1.1 }],
          ext := (env.DialContext ctx address
            (readSlice w.heap opts ++ [env.WithBlock, env.WithInsecure]) w.ext).2,
          trace := w.trace ++ [Event.dial ctx address
            (readSlice w.heap opts ++ [env.WithBlock, env.WithInsecure])] ++
            [Event.newStub (env.DialContext ctx address
              (readSlice w.heap opts ++ [env.WithBlock, env.WithInsecure]) w.ext).1.1] }) := by
  unfold NewClient
  simp only [NewClient_args, hok]

theorem NewClient_heap (env : Env α Ctx Conn Err Stub σ) (ctx : Ctx) (address : String)
    (opts : Slice) (w : World α Ctx Conn Stub σ) :
    (NewClient env ctx address opts w).2.heap = (composeOpts env w.heap opts).1 := by
  cases hd : (env.DialContext ctx address
      (readSlice w.heap opts ++ [env.WithBlock, env.WithInsecure]) w.ext).1.2 with
  | none => rw [NewClient_of_ok env ctx address opts w hd]
  | some e => rw [NewClient_of_err env ctx address opts w e hd]

theorem Close_of_handle (env : Env α Ctx Conn Err Stub σ) (p : Nat)
    (w : World α Ctx Conn Stub σ) (hd : PluginServiceClient Stub Conn)
    (hp : w.handles[p]? = some hd) :
    Close env (some p) w =
      some ((env.connClose hd.conn w.ext).1,
        { w with ext := (env.connClose hd.conn w.ext).2,
                 trace := w.trace ++ [Event.close hd.conn] }) := by
  unfold Close
  simp only [hp]

theorem SliceWF_append (h ext : Heap α) (t : Slice) (wf : SliceWF h t) :
    SliceWF (h ++ ext) t := by
  have hb := backing_append_of_wf h ext t wf
  unfold SliceWF at wf ⊢
  unfold backing at hb
  cases et : t.arr with
  | none => rw [et] at wf; exact wf
  | some b =>
    rw [et] at wf hb
    simp only at hb wf ⊢
    rw [hb]
    exact ⟨by rw [List.length_append]; omega, wf.2.1, wf.2.2⟩

theorem composeOpts_wf (env : Env α Ctx Conn Err Stub σ) (h : Heap α) (s : Slice)
    (wf : SliceWF h s) : SliceWF (composeOpts env h s).1 s := by
  obtain ⟨pre, cells, E, hc, -⟩ := composeOpts_shape env h s
  rw [hc]
  show SliceWF (h ++ pre ++ [cells]) s
  rw [List.append_assoc]
  exact SliceWF_append h _ s wf

theorem eventsSince_of_trace (w w1 : World α Ctx Conn Stub σ) (es : List (Event α Ctx Conn))
    (ht : w1.trace = w.trace ++ es) : eventsSince w w1 = es := by
  unfold eventsSince
  rw [ht, List.drop_left]

/-- The calls `NewClient` makes: one dial, and after it one stub construction when the
dial returned no error. -/
theorem NewClient_events (env : Env α Ctx Conn Err Stub σ) (ctx : Ctx) (address : String)
    (opts : Slice) (w : World α Ctx Conn Stub σ) :
    eventsSince w (NewClient env ctx address opts w).2 =
      Event.dial ctx address (readSlice w.heap opts ++ [env.WithBlock, env.WithInsecure]) ::
        (match (env.DialContext ctx address
            (readSlice w.heap opts ++ [env.WithBlock, env.WithInsecure]) w.ext).1.2 with
          | some _ => []
          | none => [Event.newStub (env.DialContext ctx address
              (readSlice w.heap opts ++ [env.WithBlock, env.WithInsecure]) w.ext).1.1]) := by
  cases hd : (env.DialContext ctx address
      (readSlice w.heap opts ++ [env.WithBlock, env.WithInsecure]) w.ext).1.2 with
  | none =>
    rw [NewClient_of_ok env ctx address opts w hd]
    apply eventsSince_of_trace
    simp
  | some e =>
    rw [NewClient_of_err env ctx address opts w e hd]
    exact eventsSince_of_trace _ _ _ rfl

theorem NewClient_ext (env : Env α Ctx Conn Err Stub σ) (ctx : Ctx) (address : String)
    (opts : Slice) (w : World α Ctx Conn Stub σ) :
    (NewClient env ctx address opts w).2.ext =
      (env.DialContext ctx address
        (readSlice w.heap opts ++ [env.WithBlock, env.WithInsecure]) w.ext).2 := by
  cases hd : (env.DialContext ctx address
      (readSlice w.heap opts ++ [env.WithBlock, env.WithInsecure]) w.ext).1.2 with
  | none => rw [NewClient_of_ok env ctx address opts w hd]
  | some e => rw [NewClient_of_err env ctx address opts w e hd]

theorem closedConns_replicate (n : Nat) (c : Conn) :
    closedConns (List.replicate n (Event.close c : Event α Ctx Conn)) = List.replicate n c := by
  induction n with
  | zero => rfl
  | succ n ih => simp [List.replicate_succ, closedConns, ih]

/-- A handle returned by a successful `NewClient` is allocated, and its connection is
the one the dial primitive returned. -/
theorem NewClient_handle (env : Env α Ctx Conn Err Stub σ) (ctx : Ctx) (address : String)
    (opts : Slice) (w0 w1 : World α Ctx Conn Stub σ) (p : Nat)
    (hnew : NewClient env ctx address opts w0 = ((some p, none), w1)) :
    w1.handles[p]? =
      some { stub := env.NewPluginServiceClient (env.DialContext ctx address
              (readSlice w0.heap opts ++ [env.WithBlock, env.WithInsecure]) w0.ext).1.1,
             conn := (env.DialContext ctx address
              (readSlice w0.heap opts ++ [env.WithBlock, env.WithInsecure]) w0.ext).1.1 } := by
  cases hd : (env.DialContext ctx address
      (readSlice w0.heap opts ++ [env.WithBlock, env.WithInsecure]) w0.ext).1.2 with
  | some e =>
    rw [NewClient_of_err env ctx address opts w0 e hd] at hnew
    simp at hnew
  | none =>
    rw [NewClient_of_ok env ctx address opts w0 hd] at hnew
    simp only [Prod.mk.injEq, Option.some.injEq, true_and, and_true] at hnew
    obtain ⟨hp, hw⟩ := hnew
    subst hw
    subst hp
    show (w0.handles ++ [_])[w0.handles.length]? = _
    rw [List.getElem?_append_right (Nat.le_refl _)]
    simp

theorem connCloseTimes_length (env : Env α Ctx Conn Err Stub σ) (c : Conn) (n : Nat) :
    ∀ s : σ, (connCloseTimes env c n s).1.length = n := by
  induction n with
  | zero => intro s; rfl
  | succ n ih => intro s; simp [connCloseTimes, ih]

/-- Repeated `Close` on an allocated handle is repeated close of its connection. -/
theorem closeTimes_of_handle (env : Env α Ctx Conn Err Stub σ) (p : Nat)
    (hd : PluginServiceClient Stub Conn) (n : Nat) :
    ∀ (w : World α Ctx Conn Stub σ), w.handles[p]? = some hd →
      closeTimes env (some p) n w =
        some ((connCloseTimes env hd.conn n w.ext).1,
          { w with ext := (connCloseTimes env hd.conn n w.ext).2,
                   trace := w.trace ++ List.replicate n (Event.close hd.conn) }) := by
  induction n with
  | zero =>
    intro w _
    simp [closeTimes, connCloseTimes]
  | succ n ih =>
    intro w hp
    have h1 := ih { w with ext := (env.connClose hd.conn w.ext).2,
                           trace := w.trace ++ [Event.close hd.conn] } hp
    simp only [closeTimes, Close_of_handle env p w hd hp, h1, connCloseTimes,
      List.replicate_succ, List.append_assoc, List.singleton_append]

end Unfold

/-! ## The claims -/

section Claims

variable {α Ctx Conn Err Stub σ : Type}

/-- C1: for every caller slice `opts` that is valid in the heap (the empty and the nil
slice included), `NewClient` calls the dial primitive with exactly the caller's sequence
followed by `WithBlock` and then `WithInsecure`: that sequence has length `len(opts)+2`,
its first `len(opts)` entries are the caller's entries in order, and its last two entries
are the two required options. -/
theorem NewClient_dials_opts_then_required (env : Env α Ctx Conn Err Stub σ) (ctx : Ctx)
    (address : String) (opts : Slice) (w : World α Ctx Conn Stub σ)
    (wf : SliceWF w.heap opts) :
    dialedOpts (eventsSince w (NewClient env ctx address opts w).2) =
        [readSlice w.heap opts ++ [env.WithBlock, env.WithInsecure]] ∧
      (NewClient env ctx address opts w).2.ext =
        (env.DialContext ctx address
          (readSlice w.heap opts ++ [env.WithBlock, env.WithInsecure]) w.ext).2 ∧
      (readSlice w.heap opts ++ [env.WithBlock, env.WithInsecure]).length = opts.len + 2 ∧
      (readSlice w.heap opts ++ [env.WithBlock, env.WithInsecure]).take opts.len =
        readSlice w.heap opts ∧
      (readSlice w.heap opts ++ [env.WithBlock, env.WithInsecure]).drop opts.len =
        [env.WithBlock, env.WithInsecure] := by
  have hlen := readSlice_length_of_wf w.heap opts wf
  refine ⟨?_, NewClient_ext env ctx address opts w, ?_, ?_, ?_⟩
  · rw [NewClient_events]
    cases (env.DialContext ctx address
      (readSlice w.heap opts ++ [env.WithBlock, env.WithInsecure]) w.ext).1.2 <;> rfl
  · rw [List.length_append, hlen]
    rfl
  · exact List.take_left' hlen
  · exact List.drop_left' hlen

/-- C1, at the caller slice of the examples (three options, capacity five). -/
theorem NewClient_dials_opts_then_required_witness :
    SliceWF exWorld.heap exOpts ∧
      dialedOpts (eventsSince exWorld (NewClient exEnv 0 "127.0.0.1:9087" exOpts exWorld).2) =
        [readSlice exWorld.heap exOpts ++ [exEnv.WithBlock, exEnv.WithInsecure]] :=
  ⟨by decide,
    (NewClient_dials_opts_then_required exEnv 0 "127.0.0.1:9087" exOpts exWorld (by decide)).1⟩

/-- C2: `NewClient` does not write to the caller's slice.  The header is passed by value
(`opts` below is the caller's header before and after); for every valid caller slice,
whatever its spare capacity, every array that existed before the call is the same
afterwards, so the caller's header is still valid with the same `len` and `cap`, and the
cells `opts[0..cap)` and the elements `opts[0..len)` read as before. -/
theorem NewClient_keeps_caller_slice (env : Env α Ctx Conn Err Stub σ) (ctx : Ctx)
    (address : String) (opts : Slice) (w : World α Ctx Conn Stub σ)
    (wf : SliceWF w.heap opts) :
    (NewClient env ctx address opts w).2.heap.take w.heap.length = w.heap ∧
      SliceWF (NewClient env ctx address opts w).2.heap opts ∧
      readCap (NewClient env ctx address opts w).2.heap opts = readCap w.heap opts ∧
      readSlice (NewClient env ctx address opts w).2.heap opts = readSlice w.heap opts := by
  rw [NewClient_heap]
  exact ⟨composeOpts_take env w.heap opts, composeOpts_wf env w.heap opts wf,
    readCap_congr _ _ _ (composeOpts_backing env w.heap opts wf),
    readSlice_congr _ _ _ (composeOpts_backing env w.heap opts wf)⟩

/-- C2, at a caller slice whose capacity exceeds its length by two. -/
theorem NewClient_keeps_caller_slice_witness :
    SliceWF exWorld.heap exOpts ∧ exOpts.len + 2 ≤ exOpts.cap ∧
      readCap (NewClient exEnv 0 "127.0.0.1:9087" exOpts exWorld).2.heap exOpts =
        readCap exWorld.heap exOpts :=
  ⟨by decide, by decide,
    (NewClient_keeps_caller_slice exEnv 0 "127.0.0.1:9087" exOpts exWorld (by decide)).2.2.1⟩

/-- C3: the slice `NewClient` builds for the dial primitive shares no storage with a valid
caller slice `opts` (empty or not).  With `H` the heap after the call and `E` the built
slice: storing any value at any index of `E` leaves the cells and the elements of `opts`
as they were before the call; storing any value at any index of `opts`, or appending
anything to `opts` (within its capacity or beyond), leaves `E` reading as the caller's
old sequence followed by the two required options. -/
theorem NewClient_opts_storage_independent (env : Env α Ctx Conn Err Stub σ) (ctx : Ctx)
    (address : String) (opts : Slice) (w : World α Ctx Conn Stub σ)
    (wf : SliceWF w.heap opts) :
    (∀ (i : Nat) (v : α),
      readCap (writeSlice (NewClient env ctx address opts w).2.heap
          (composeOpts env w.heap opts).2 i [v]) opts = readCap w.heap opts ∧
      readSlice (writeSlice (NewClient env ctx address opts w).2.heap
          (composeOpts env w.heap opts).2 i [v]) opts = readSlice w.heap opts) ∧
    (∀ (j : Nat) (v : α),
      readSlice (writeSlice (NewClient env ctx address opts w).2.heap opts j [v])
          (composeOpts env w.heap opts).2 =
        readSlice w.heap opts ++ [env.WithBlock, env.WithInsecure]) ∧
    (∀ (rt : Runtime α) (xs : List α),
      readSlice (goAppend rt (NewClient env ctx address opts w).2.heap opts xs).1
          (composeOpts env w.heap opts).2 =
        readSlice w.heap opts ++ [env.WithBlock, env.WithInsecure]) := by
  rw [NewClient_heap]
  obtain ⟨k, hk, hle, hwfE⟩ := composeOpts_fresh env w.heap opts
  have hne := wf_arr_ne_of_fresh w.heap opts wf _ k hk hle
  have hb := composeOpts_backing env w.heap opts wf
  refine ⟨fun i v => ⟨?_, ?_⟩, fun j v => ?_, fun rt xs => ?_⟩
  · exact readCap_congr _ _ _ ((backing_writeSlice_of_ne _ _ _ i [v] hne.2).trans hb)
  · exact readSlice_congr _ _ _ ((backing_writeSlice_of_ne _ _ _ i [v] hne.2).trans hb)
  · rw [readSlice_congr _ _ _ (backing_writeSlice_of_ne _ _ _ j [v] hne.1)]
    exact composeOpts_read env w.heap opts
  · rw [readSlice_congr _ _ _ (backing_goAppend_of_ne rt _ _ _ xs hne.1 hwfE)]
    exact composeOpts_read env w.heap opts

/-- C3, at the caller slice of the examples: overwriting the first built entry leaves the
caller's three options, and appending two options to the caller's slice in place leaves
the built sequence. -/
theorem NewClient_opts_storage_independent_witness :
    SliceWF exWorld.heap exOpts ∧
      readSlice (writeSlice (NewClient exEnv 0 "127.0.0.1:9087" exOpts exWorld).2.heap
          (composeOpts exEnv exWorld.heap exOpts).2 0 [ConnectionOption.other 9 9]) exOpts =
        readSlice exWorld.heap exOpts ∧
      readSlice (goAppend exEnv.rt (NewClient exEnv 0 "127.0.0.1:9087" exOpts exWorld).2.heap
          exOpts [ConnectionOption.other 9 9, ConnectionOption.other 8 8]).1
          (composeOpts exEnv exWorld.heap exOpts).2 =
        readSlice exWorld.heap exOpts ++ [exEnv.WithBlock, exEnv.WithInsecure] :=
  ⟨by decide,
    ((NewClient_opts_storage_independent exEnv 0 "127.0.0.1:9087" exOpts exWorld
      (by decide)).1 0 (ConnectionOption.other 9 9)).2,
    (NewClient_opts_storage_independent exEnv 0 "127.0.0.1:9087" exOpts exWorld
      (by decide)).2.2 exEnv.rt [ConnectionOption.other 9 9, ConnectionOption.other 8 8]⟩

/-- C4: when the dial primitive returns an error `e`, `NewClient` returns the nil handle
and exactly `e`; the only call it made is the dial, so no service stub was constructed,
and no handle was allocated. -/
theorem NewClient_returns_dial_error (env : Env α Ctx Conn Err Stub σ) (ctx : Ctx)
    (address : String) (opts : Slice) (w : World α Ctx Conn Stub σ) (e : Err)
    (herr : (env.DialContext ctx address
      (readSlice w.heap opts ++ [env.WithBlock, env.WithInsecure]) w.ext).1.2 = some e) :
    (NewClient env ctx address opts w).1 = (none, some e) ∧
      eventsSince w (NewClient env ctx address opts w).2 =
        [Event.dial ctx address (readSlice w.heap opts ++ [env.WithBlock, env.WithInsecure])] ∧
      (eventsSince w (NewClient env ctx address opts w).2).filter Event.isNewStub = [] ∧
      (NewClient env ctx address opts w).2.handles = w.handles := by
  have hev := NewClient_events env ctx address opts w
  rw [herr] at hev
  refine ⟨?_, hev, ?_, ?_⟩
  · rw [NewClient_of_err env ctx address opts w e herr]
  · rw [hev]
    rfl
  · rw [NewClient_of_err env ctx address opts w e herr]

/-- C4, at a dial that is refused (context 2 of the examples). -/
theorem NewClient_returns_dial_error_witness :
    (exEnv.DialContext 2 "127.0.0.1:9087"
        (readSlice exWorld.heap exOpts ++ [exEnv.WithBlock, exEnv.WithInsecure])
        exWorld.ext).1.2 = some 111 ∧
      (NewClient exEnv 2 "127.0.0.1:9087" exOpts exWorld).1 = (none, some 111) :=
  ⟨by decide,
    (NewClient_returns_dial_error exEnv 2 "127.0.0.1:9087" exOpts exWorld 111 (by decide)).1⟩

/-- C5: when the dial primitive returns a connection `c` and no error, `NewClient` returns
a nil error and a non-nil handle; exactly one handle is allocated, the returned pointer
points to it, its connection is `c` and its stub is what the generated constructor returns
for `c`; the constructor is called once, after the dial. -/
theorem NewClient_wraps_connection (env : Env α Ctx Conn Err Stub σ) (ctx : Ctx)
    (address : String) (opts : Slice) (w : World α Ctx Conn Stub σ) (c : Conn)
    (hok : (env.DialContext ctx address
      (readSlice w.heap opts ++ [env.WithBlock, env.WithInsecure]) w.ext).1 = (c, none)) :
    (NewClient env ctx address opts w).1 = (some w.handles.length, none) ∧
      (NewClient env ctx address opts w).2.handles =
        w.handles ++ [{ stub := env.NewPluginServiceClient c, conn := c }] ∧
      (NewClient env ctx address opts w).2.handles[w.handles.length]? =
        some { stub := env.NewPluginServiceClient c, conn := c } ∧
      eventsSince w (NewClient env ctx address opts w).2 =
        [Event.dial ctx address (readSlice w.heap opts ++ [env.WithBlock, env.WithInsecure]),
          Event.newStub c] := by
  have h2 : (env.DialContext ctx address
      (readSlice w.heap opts ++ [env.WithBlock, env.WithInsecure]) w.ext).1.2 = none := by
    rw [hok]
  have h1 : (env.DialContext ctx address
      (readSlice w.heap opts ++ [env.WithBlock, env.WithInsecure]) w.ext).1.1 = c := by
    rw [hok]
  have hev := NewClient_events env ctx address opts w
  rw [h2, h1] at hev
  rw [NewClient_of_ok env ctx address opts w h2, h1] at *
  refine ⟨rfl, rfl, ?_, hev⟩
  show (w.handles ++ [_])[w.handles.length]? = _
  rw [List.getElem?_append_right (Nat.le_refl _)]
  simp

/-- C5, at a dial that connects (context 0 of the examples, connection 7). -/
theorem NewClient_wraps_connection_witness :
    (exEnv.DialContext 0 "127.0.0.1:9087"
        (readSlice exWorld.heap exOpts ++ [exEnv.WithBlock, exEnv.WithInsecure])
        exWorld.ext).1 = (some 7, none) ∧
      (NewClient exEnv 0 "127.0.0.1:9087" exOpts exWorld).2.handles =
        exWorld.handles ++ [{ stub := exEnv.NewPluginServiceClient (some 7), conn := some 7 }] :=
  ⟨by decide,
    (NewClient_wraps_connection exEnv 0 "127.0.0.1:9087" exOpts exWorld (some 7)
      (by decide)).2.1⟩

/-- C6: when establish fails, no connection resource is leaked.  For every outcome of
the dial primitive that carries an error `e` (a dial outcome is a connection or an error,
so it carries no connection), `NewClient` returns the nil handle and exactly `e`; the one
dial is the only call it made, so it opened nothing itself and built no stub; it allocated
no handle, so nothing keeps a connection; the outside state is exactly as the dial
primitive left it; and every connection resource the dial returned (there is none) is
among the connections `NewClient` closed. -/
theorem NewClient_failure_leaks_nothing {C : Type} (env : Env α Ctx (Option C) Err Stub σ)
    (ctx : Ctx) (address : String) (opts : Slice) (w : World α Ctx (Option C) Stub σ) (e : Err)
    (hfail : (env.DialContext ctx address
      (readSlice w.heap opts ++ [env.WithBlock, env.WithInsecure]) w.ext).1 = (none, some e)) :
    (NewClient env ctx address opts w).1 = (none, some e) ∧
      eventsSince w (NewClient env ctx address opts w).2 =
        [Event.dial ctx address (readSlice w.heap opts ++ [env.WithBlock, env.WithInsecure])] ∧
      (NewClient env ctx address opts w).2.handles = w.handles ∧
      (NewClient env ctx address opts w).2.ext =
        (env.DialContext ctx address
          (readSlice w.heap opts ++ [env.WithBlock, env.WithInsecure]) w.ext).2 ∧
      (∀ c ∈ returnedConns (env.DialContext ctx address
          (readSlice w.heap opts ++ [env.WithBlock, env.WithInsecure]) w.ext).1,
        some c ∈ closedConns (eventsSince w (NewClient env ctx address opts w).2)) := by
  have herr : (env.DialContext ctx address
      (readSlice w.heap opts ++ [env.WithBlock, env.WithInsecure]) w.ext).1.2 = some e := by
    rw [hfail]
  have hev := NewClient_events env ctx address opts w
  rw [herr] at hev
  refine ⟨?_, hev, ?_, NewClient_ext env ctx address opts w, ?_⟩
  · rw [NewClient_of_err env ctx address opts w e herr]
  · rw [NewClient_of_err env ctx address opts w e herr]
  · intro c hc
    rw [hfail] at hc
    simp [returnedConns] at hc

/-- C6, at the dial of the examples that fails with error 503: the error comes back with
the nil handle, the dial is the only call, and no connection is open afterwards. -/
theorem NewClient_failure_leaks_nothing_witness :
    (exEnv.DialContext 1 "127.0.0.1:9087"
        (readSlice exWorld.heap exOpts ++ [exEnv.WithBlock, exEnv.WithInsecure])
        exWorld.ext).1 = (none, some 503) ∧
      (NewClient exEnv 1 "127.0.0.1:9087" exOpts exWorld).1 = (none, some 503) ∧
      eventsSince exWorld (NewClient exEnv 1 "127.0.0.1:9087" exOpts exWorld).2 =
        [Event.dial 1 "127.0.0.1:9087"
          (readSlice exWorld.heap exOpts ++ [exEnv.WithBlock, exEnv.WithInsecure])] ∧
      (NewClient exEnv 1 "127.0.0.1:9087" exOpts exWorld).2.ext.openConns = [] :=
  ⟨by decide,
    (NewClient_failure_leaks_nothing exEnv 1 "127.0.0.1:9087" exOpts exWorld 503
      (by decide)).1,
    (NewClient_failure_leaks_nothing exEnv 1 "127.0.0.1:9087" exOpts exWorld 503
      (by decide)).2.1,
    by decide⟩

/-- C7: let `p` be the handle a successful `NewClient` returned and `c` the connection the
dial primitive returned in that call.  In any later state `w` in which the handle is as
`NewClient` left it, one `Close` returns exactly what the connection's close returns
(nil or the same error), calls that close once and nothing else, leaves the outside state
as that close left it, and changes neither the handles nor the heap. -/
theorem Close_returns_conn_close (env : Env α Ctx Conn Err Stub σ) (ctx : Ctx)
    (address : String) (opts : Slice) (w0 w1 w : World α Ctx Conn Stub σ) (p : Nat)
    (hnew : NewClient env ctx address opts w0 = ((some p, none), w1))
    (hsame : w.handles[p]? = w1.handles[p]?) :
    ∃ w2, Close env (some p) w =
        some ((env.connClose (env.DialContext ctx address
          (readSlice w0.heap opts ++ [env.WithBlock, env.WithInsecure]) w0.ext).1.1 w.ext).1,
          w2) ∧
      eventsSince w w2 = [Event.close (env.DialContext ctx address
          (readSlice w0.heap opts ++ [env.WithBlock, env.WithInsecure]) w0.ext).1.1] ∧
      w2.ext = (env.connClose (env.DialContext ctx address
          (readSlice w0.heap opts ++ [env.WithBlock, env.WithInsecure]) w0.ext).1.1 w.ext).2 ∧
      w2.handles = w.handles ∧ w2.heap = w.heap := by
  have hp := NewClient_handle env ctx address opts w0 w1 p hnew
  rw [← hsame] at hp
  rw [Close_of_handle env p w _ hp]
  exact ⟨_, rfl, eventsSince_of_trace _ _ _ rfl, rfl, rfl, rfl⟩

/-- C7, at the handle of the connecting example: `Close` returns nil and calls the close
of connection 7 once. -/
theorem Close_returns_conn_close_witness :
    NewClient exEnv 0 "127.0.0.1:9087" exOpts exWorld =
        ((some 0, none), (NewClient exEnv 0 "127.0.0.1:9087" exOpts exWorld).2) ∧
      ∃ w2, Close exEnv (some 0) (NewClient exEnv 0 "127.0.0.1:9087" exOpts exWorld).2 =
          some ((exEnv.connClose (exEnv.DialContext 0 "127.0.0.1:9087"
            (readSlice exWorld.heap exOpts ++ [exEnv.WithBlock, exEnv.WithInsecure])
            exWorld.ext).1.1 (NewClient exEnv 0 "127.0.0.1:9087" exOpts exWorld).2.ext).1,
            w2) ∧
        eventsSince (NewClient exEnv 0 "127.0.0.1:9087" exOpts exWorld).2 w2 =
          [Event.close (exEnv.DialContext 0 "127.0.0.1:9087"
            (readSlice exWorld.heap exOpts ++ [exEnv.WithBlock, exEnv.WithInsecure])
            exWorld.ext).1.1] ∧
        w2.ext = (exEnv.connClose (exEnv.DialContext 0 "127.0.0.1:9087"
            (readSlice exWorld.heap exOpts ++ [exEnv.WithBlock, exEnv.WithInsecure])
            exWorld.ext).1.1 (NewClient exEnv 0 "127.0.0.1:9087" exOpts exWorld).2.ext).2 ∧
        w2.handles = (NewClient exEnv 0 "127.0.0.1:9087" exOpts exWorld).2.handles ∧
        w2.heap = (NewClient exEnv 0 "127.0.0.1:9087" exOpts exWorld).2.heap :=
  ⟨rfl,
    Close_returns_conn_close exEnv 0 "127.0.0.1:9087" exOpts exWorld
      (NewClient exEnv 0 "127.0.0.1:9087" exOpts exWorld).2
      (NewClient exEnv 0 "127.0.0.1:9087" exOpts exWorld).2 0 rfl rfl⟩

/-- C8, refuted as stated: on the handle of the connecting example two calls of `Close`
call the close of connection 7 twice, not once, and the second `Close` is not a silent
repeat of the first: it returns the error of the second close (error 9) where the first
returned nil.  The set of open connections is empty after one call and after two. -/
theorem Close_twice_closes_twice :
    (closeTimes exEnv (some 0) 2 (NewClient exEnv 0 "127.0.0.1:9087" exOpts exWorld).2).map
        (fun r => (r.1, closedConns (eventsSince
          (NewClient exEnv 0 "127.0.0.1:9087" exOpts exWorld).2 r.2), r.2.ext.openConns)) =
        some ([none, some 9], [some 7, some 7], []) ∧
      (closeTimes exEnv (some 0) 1 (NewClient exEnv 0 "127.0.0.1:9087" exOpts exWorld).2).map
        (fun r => (r.1, closedConns (eventsSince
          (NewClient exEnv 0 "127.0.0.1:9087" exOpts exWorld).2 r.2), r.2.ext.openConns)) =
        some ([none], [some 7], []) := by
  decide

/-- C8, amended: `Close` has no guard of its own.  For the handle `p` of a successful
`NewClient` with connection `c`, and any later state `w` in which the handle is as
`NewClient` left it, `n` calls of `Close` in a row all return and are exactly `n` calls of
the close of `c` in a row: the results, in order, and the outside state afterwards are
those of applying that close `n` times to the outside state of `w`, the calls made are
`n` close calls on `c` and nothing else, and the handles and the heap are unchanged.
What a repeated `Close` does is thus decided by the connection's own close alone. -/
theorem closeTimes_closes_each_time (env : Env α Ctx Conn Err Stub σ) (ctx : Ctx)
    (address : String) (opts : Slice) (w0 w1 w : World α Ctx Conn Stub σ) (p n : Nat)
    (hnew : NewClient env ctx address opts w0 = ((some p, none), w1))
    (hsame : w.handles[p]? = w1.handles[p]?) :
    ∃ rs w2, closeTimes env (some p) n w = some (rs, w2) ∧
      rs = (connCloseTimes env (env.DialContext ctx address
          (readSlice w0.heap opts ++ [env.WithBlock, env.WithInsecure]) w0.ext).1.1
          n w.ext).1 ∧
      w2.ext = (connCloseTimes env (env.DialContext ctx address
          (readSlice w0.heap opts ++ [env.WithBlock, env.WithInsecure]) w0.ext).1.1
          n w.ext).2 ∧
      rs.length = n ∧
      eventsSince w w2 = List.replicate n (Event.close (env.DialContext ctx address
          (readSlice w0.heap opts ++ [env.WithBlock, env.WithInsecure]) w0.ext).1.1) ∧
      closedConns (eventsSince w w2) = List.replicate n (env.DialContext ctx address
          (readSlice w0.heap opts ++ [env.WithBlock, env.WithInsecure]) w0.ext).1.1 ∧
      w2.handles = w.handles ∧ w2.heap = w.heap := by
  have hp := NewClient_handle env ctx address opts w0 w1 p hnew
  rw [← hsame] at hp
  have hev : eventsSince w
      { w with ext := (connCloseTimes env (env.DialContext ctx address
                  (readSlice w0.heap opts ++ [env.WithBlock, env.WithInsecure]) w0.ext).1.1
                  n w.ext).2,
               trace := w.trace ++ List.replicate n (Event.close (env.DialContext ctx address
                  (readSlice w0.heap opts ++ [env.WithBlock, env.WithInsecure]) w0.ext).1.1) } =
      List.replicate n (Event.close (env.DialContext ctx address
        (readSlice w0.heap opts ++ [env.WithBlock, env.WithInsecure]) w0.ext).1.1) :=
    eventsSince_of_trace _ _ _ rfl
  refine ⟨_, _, closeTimes_of_handle env p _ n w hp, rfl, rfl, ?_, hev, ?_, rfl, rfl⟩
  · exact connCloseTimes_length env _ n w.ext
  · rw [hev, closedConns_replicate]

/-- C8 amended, at three calls of `Close` on the handle of the connecting example: the
results are nil, then error 9 twice, as three closes of connection 7 give. -/
theorem closeTimes_closes_each_time_witness :
    NewClient exEnv 0 "127.0.0.1:9087" exOpts exWorld =
        ((some 0, none), (NewClient exEnv 0 "127.0.0.1:9087" exOpts exWorld).2) ∧
      (connCloseTimes exEnv (some 7) 3
        (NewClient exEnv 0 "127.0.0.1:9087" exOpts exWorld).2.ext).1 =
          [none, some 9, some 9] ∧
      ∃ rs w2, closeTimes exEnv (some 0) 3
          (NewClient exEnv 0 "127.0.0.1:9087" exOpts exWorld).2 = some (rs, w2) ∧
        rs = (connCloseTimes exEnv (exEnv.DialContext 0 "127.0.0.1:9087"
            (readSlice exWorld.heap exOpts ++ [exEnv.WithBlock, exEnv.WithInsecure])
            exWorld.ext).1.1 3 (NewClient exEnv 0 "127.0.0.1:9087" exOpts exWorld).2.ext).1 ∧
        w2.ext = (connCloseTimes exEnv (exEnv.DialContext 0 "127.0.0.1:9087"
            (readSlice exWorld.heap exOpts ++ [exEnv.WithBlock, exEnv.WithInsecure])
            exWorld.ext).1.1 3 (NewClient exEnv 0 "127.0.0.1:9087" exOpts exWorld).2.ext).2 ∧
        rs.length = 3 ∧
        eventsSince (NewClient exEnv 0 "127.0.0.1:9087" exOpts exWorld).2 w2 =
          List.replicate 3 (Event.close (exEnv.DialContext 0 "127.0.0.1:9087"
            (readSlice exWorld.heap exOpts ++ [exEnv.WithBlock, exEnv.WithInsecure])
            exWorld.ext).1.1) ∧
        closedConns (eventsSince (NewClient exEnv 0 "127.0.0.1:9087" exOpts exWorld).2 w2) =
          List.replicate 3 (exEnv.DialContext 0 "127.0.0.1:9087"
            (readSlice exWorld.heap exOpts ++ [exEnv.WithBlock, exEnv.WithInsecure])
            exWorld.ext).1.1 ∧
        w2.handles = (NewClient exEnv 0 "127.0.0.1:9087" exOpts exWorld).2.handles ∧
        w2.heap = (NewClient exEnv 0 "127.0.0.1:9087" exOpts exWorld).2.heap :=
  ⟨rfl, by decide,
    closeTimes_closes_each_time exEnv 0 "127.0.0.1:9087" exOpts exWorld
      (NewClient exEnv 0 "127.0.0.1:9087" exOpts exWorld).2
      (NewClient exEnv 0 "127.0.0.1:9087" exOpts exWorld).2 0 3 rfl rfl⟩

/-- C9: with options read as configuration effects applied in order (the last option
applied for a concern wins), for every caller slice, whatever it contains, and every
starting configuration, the one option sequence `NewClient` dials with yields a
configuration with block-until-connected on and transport security off. -/
theorem NewClient_required_options_win
    (env : Env ConnectionOption Ctx Conn Err Stub σ) (ctx : Ctx) (address : String)
    (opts : Slice) (w : World ConnectionOption Ctx Conn Stub σ) (cfg : Config) :
    (dialedOpts (eventsSince w (NewClient (specOptions env) ctx address opts w).2)).map
        (fun os => ((cfg.applyAll os).block, (cfg.applyAll os).transportSecurity)) =
      [(true, false)] := by
  rw [NewClient_events]
  have key : ∀ os : List ConnectionOption,
      ((cfg.applyAll (os ++ [(specOptions env).WithBlock, (specOptions env).WithInsecure])).block,
        (cfg.applyAll (os ++ [(specOptions env).WithBlock,
          (specOptions env).WithInsecure])).transportSecurity) = (true, false) := by
    intro os
    simp [Config.applyAll, List.foldl_append, Config.apply, specOptions]
  cases ((specOptions env).DialContext ctx address
      (readSlice w.heap opts ++ [(specOptions env).WithBlock, (specOptions env).WithInsecure])
      w.ext).1.2 <;> simp only [dialedOpts, List.map, key]

/-- C10: every call of `NewClient` calls the dial primitive exactly once, with the
caller's context and address as given (and the composed options); the error `NewClient`
returns and the outside state it leaves are those of that one call, so a failed dial is
not tried again. -/
theorem NewClient_dials_once (env : Env α Ctx Conn Err Stub σ) (ctx : Ctx)
    (address : String) (opts : Slice) (w : World α Ctx Conn Stub σ) :
    (eventsSince w (NewClient env ctx address opts w).2).filter Event.isDial =
        [Event.dial ctx address (readSlice w.heap opts ++ [env.WithBlock, env.WithInsecure])] ∧
      (NewClient env ctx address opts w).1.2 =
        (env.DialContext ctx address
          (readSlice w.heap opts ++ [env.WithBlock, env.WithInsecure]) w.ext).1.2 ∧
      (NewClient env ctx address opts w).2.ext =
        (env.DialContext ctx address
          (readSlice w.heap opts ++ [env.WithBlock, env.WithInsecure]) w.ext).2 := by
  refine ⟨?_, ?_, NewClient_ext env ctx address opts w⟩
  · rw [NewClient_events]
    cases (env.DialContext ctx address
      (readSlice w.heap opts ++ [env.WithBlock, env.WithInsecure]) w.ext).1.2 <;> rfl
  · cases hd : (env.DialContext ctx address
        (readSlice w.heap opts ++ [env.WithBlock, env.WithInsecure]) w.ext).1.2 with
    | none => rw [NewClient_of_ok env ctx address opts w hd]
    | some e => rw [NewClient_of_err env ctx address opts w e hd]

end Claims

end Pipedapi
